import Mathlib

/-!
Verification development for the QSR-menu LLM tutorial repository.

The repository ships a LangChain notebook (1-LangChain.ipynb) plus a README
describing a planned multi-agent Request-Routing Orchestrator (the third,
not-yet-implemented notebook). The orchestrator itself has no code in the
repository, so its data model, tool registry, supervisor and orchestration
loop are modelled here from the specification text; the schema facts and the
response-printing step are translated from the notebook.
-/

namespace QSR

/-- Modelled from the spec: the immutable input record of section 3
(the Request-Routing Orchestrator is described only in the README; no
implementation exists in the repository). -/
structure Request where
  id : Nat
  raw_text : String
  optional_image_reference : Option String
deriving DecidableEq, Repr

/-- Modelled from the spec: oracle routing output of section 3. -/
structure Decision where
  target_capability : String
  rationale : String
deriving DecidableEq, Repr

/-- Modelled from the spec: a tool invocation record of section 3;
arguments are an ordered sequence of key/value pairs. -/
structure ToolCall where
  tool_name : String
  arguments : List (String × String)
deriving DecidableEq, Repr

/-- Modelled from the spec: the ok/error status of a ToolResult. -/
inductive ToolStatus where
  | ok
  | error
deriving DecidableEq, Repr

/-- Modelled from the spec: the result of one tool invocation (section 3). -/
structure ToolResult where
  tool_name : String
  status : ToolStatus
  payload : String
deriving DecidableEq, Repr

/-- Modelled from the spec: the terminal answer entry (section 3). -/
structure FinalAnswer where
  text : String
deriving DecidableEq, Repr

/-- Modelled from the spec: one entry of the append-only ConversationState
(section 3: Request, Decision, ToolCall, ToolResult or FinalAnswer). -/
inductive Entry where
  | request : Request → Entry
  | decision : Decision → Entry
  | toolCall : ToolCall → Entry
  | toolResult : ToolResult → Entry
  | finalAnswer : FinalAnswer → Entry
deriving DecidableEq, Repr

/-- Modelled from the spec: the ordered, append-only conversation record
owned by the Orchestration Loop for one request. -/
abbrev ConversationState := List Entry

/-- Modelled from the spec: one oracle consultation yields either one or
more proposed ToolCalls or a FinalAnswer (section 4.2 and section 6). -/
inductive AgentStep where
  | toolCalls : List ToolCall → AgentStep
  | final : FinalAnswer → AgentStep
deriving DecidableEq, Repr

/-- Modelled from the spec: a Capability Agent consults the oracle with the
current ConversationState and proposes the next step (section 4.2).  The
oracle is an opaque, possibly non-deterministic collaborator; it is
quantified over in every theorem. -/
abbrev Oracle := ConversationState → AgentStep

/-- Modelled from the spec: output of one underlying capability: a result
(error means the capability raised) plus the list of SQL statements it
actually dispatched to the database. -/
structure CapOutput where
  result : Except String String
  executed : List String

/-- Modelled from the spec: an executable capability held by the Tool
Registry (section 4.1). -/
abbrev Capability := List (String × String) → CapOutput

/-- Modelled from the spec: the Tool Registry, a fixed mapping from tool
name to an executable capability; pure lookup, no state (section 4.1). -/
abbrev Registry := String → Option Capability

/-- Modelled from the spec: the UnknownTool failure of the registry
contract (section 4.1). -/
inductive InvokeError where
  | UnknownTool
deriving DecidableEq, Repr

/-- Modelled from the spec: the failure taxonomy of section 7 that can
terminate the loop. -/
inductive FailureReason where
  | TurnBudgetExhausted
  | RoutingAmbiguous
  | OracleUnavailable
deriving DecidableEq, Repr

/-- Modelled from the spec: terminal outcomes of the Orchestration Loop
(section 4.4): DONE with the FinalAnswer, or FAILED with a structured
reason. -/
inductive Outcome where
  | done : FinalAnswer → Outcome
  | failed : FailureReason → Outcome
deriving DecidableEq, Repr

/-- Modelled from the spec: registry invocation contract of section 4.1.
Fails with UnknownTool when the name is not registered; when the underlying
capability raises, the error is returned as a ToolResult with status error
rather than propagated. -/
def Registry.invoke (reg : Registry) (tc : ToolCall) :
    Except InvokeError (ToolResult × List String) :=
  match reg tc.tool_name with
  | none => Except.error InvokeError.UnknownTool
  | some cap =>
    match (cap tc.arguments).result with
    | Except.ok payload =>
      Except.ok (⟨tc.tool_name, ToolStatus.ok, payload⟩,
        (cap tc.arguments).executed)
    | Except.error msg =>
      Except.ok (⟨tc.tool_name, ToolStatus.error, msg⟩,
        (cap tc.arguments).executed)

/-- Drops leading whitespace characters. -/
def dropLeadingWs : List Char → List Char
  | [] => []
  | c :: rest => if c.isWhitespace then dropLeadingWs rest else c :: rest

/-- Takes characters up to the first whitespace character. -/
def takeUntilWs : List Char → List Char
  | [] => []
  | c :: rest => if c.isWhitespace then [] else c :: takeUntilWs rest

/-- Modelled from the spec: first keyword of a SQL statement, uppercased,
used by the static statement-kind policy of section 4.2. -/
def firstKeyword (s : String) : String :=
  String.mk ((takeUntilWs (dropLeadingWs s.data)).map Char.toUpper)

/-- Modelled from the spec: the closed set of SQL statement kinds the
static read-only policy classifies. -/
inductive SqlKind where
  | select
  | insert
  | update
  | delete
  | drop
  | create
  | alter
  | other
deriving DecidableEq, Repr

/-- Modelled from the spec: statement-kind classifier for the read-only
policy of section 4.2. -/
def sqlKind (s : String) : SqlKind :=
  match firstKeyword s with
  | "SELECT" => SqlKind.select
  | "INSERT" => SqlKind.insert
  | "UPDATE" => SqlKind.update
  | "DELETE" => SqlKind.delete
  | "DROP" => SqlKind.drop
  | "CREATE" => SqlKind.create
  | "ALTER" => SqlKind.alter
  | _ => SqlKind.other

/-- Modelled from the spec: only read-only statement kinds are ever
accepted to execute (section 4.2). -/
def SqlKind.readOnly : SqlKind → Bool
  | SqlKind.select => true
  | _ => false

/-- Modelled from the spec: the SQL execution collaborator of section 6,
exposing table listing, schema retrieval and query execution (run may
raise, modelled as an error result). -/
structure SqlCollab where
  list_tables : List String
  schema : String → String
  dbExec : String → Except String String

/-- Modelled from the spec: the query argument of a SQL tool call. -/
def argQuery (args : List (String × String)) : String :=
  (args.lookup "query").getD ""

/-- Modelled from the spec: message the registry returns when the static
read-only policy rejects a statement. -/
def policyRejectMsg : String :=
  "ToolExecutionError: read-only policy rejects this statement kind"

/-- Modelled from the spec: the table-listing capability of section 6;
executes nothing against the database. -/
def listTablesCap (c : SqlCollab) : Capability := fun _ =>
  ⟨Except.ok (String.intercalate ", " c.list_tables), []⟩

/-- Modelled from the spec: the schema-retrieval capability of section 6;
executes nothing against the database. -/
def schemaCap (c : SqlCollab) : Capability := fun args =>
  ⟨Except.ok (c.schema (argQuery args)), []⟩

/-- Modelled from the spec: run_checked of section 6, validation without
execution: it consults the check oracle and never touches the
database. -/
def runCheckedCap (checker : String → Bool) : Capability := fun args =>
  if checker (argQuery args) then ⟨Except.ok "ok", []⟩
  else ⟨Except.error "check failed", []⟩

/-- Modelled from the spec: run of section 6, guarded by the static
read-only policy of section 4.2: a non-read-only statement kind yields a
ToolExecutionError and is never dispatched to the database. -/
def runCap (c : SqlCollab) : Capability := fun args =>
  if (sqlKind (argQuery args)).readOnly then
    match c.dbExec (argQuery args) with
    | Except.ok rows => ⟨Except.ok rows, [argQuery args]⟩
    | Except.error e => ⟨Except.error e, [argQuery args]⟩
  else ⟨Except.error policyRejectMsg, []⟩

/-- Modelled from the spec: the SQL tool subset of section 6 registered in
the Tool Registry: list_tables, schema, run_checked (validation without
execution) and run (execution, guarded by the static read-only policy).
Only run ever dispatches a statement to the database. -/
def sqlTools (c : SqlCollab) (checker : String → Bool) : Registry := fun name =>
  match name with
  | "list_tables" => some (listTablesCap c)
  | "schema" => some (schemaCap c)
  | "run_checked" => some (runCheckedCap checker)
  | "run" => some (runCap c)
  | _ => none

/-- Modelled from the spec: whole-system parameters of the orchestrator:
turn budget, capability table with each agent oracle, the router oracle,
the registry and the query-check oracle. -/
structure System where
  maxTurns : Nat
  sqlAgentId : String
  capabilities : List (String × Oracle)
  routerAnswer : Request → String
  reg : Registry
  checker : String → Bool

/-- Modelled from the spec: routing policy of section 4.3: an oracle answer
that matches no known capability id defaults to the SQL Agent instead of
aborting. -/
def route (answer : String) (known : List String) (defaultId : String) : String :=
  if answer ∈ known then answer else defaultId

/-- Modelled from the spec: dispatch of a single ToolCall by the
Orchestration Loop.  An execute call whose statement fails the check oracle
is never forwarded to the registry (validate-before-execute, section 4.2);
an UnknownTool failure is converted to an error ToolResult so the loop
never crashes on a tool failure (section 7). -/
def dispatchCall (sys : System) (tc : ToolCall) : ToolResult × List String :=
  if tc.tool_name == "run" && !sys.checker (argQuery tc.arguments) then
    (⟨tc.tool_name, ToolStatus.error,
      "check failed: statement rejected before execution"⟩, [])
  else
    match Registry.invoke sys.reg tc with
    | Except.ok pr => pr
    | Except.error _ => (⟨tc.tool_name, ToolStatus.error, "UnknownTool"⟩, [])

/-- Modelled from the spec: sequential dispatch of the turn ToolCalls
(section 4.4, TOOL_DISPATCH): each call is dispatched in order and its
result appended immediately after it. -/
def dispatchAll (sys : System) : List ToolCall → List Entry × List String
  | [] => ([], [])
  | tc :: rest =>
    let pr := dispatchCall sys tc
    let tail := dispatchAll sys rest
    (Entry.toolCall tc :: Entry.toolResult pr.1 :: tail.1, pr.2 ++ tail.2)

/-- Modelled from the spec: the observable result of one orchestrator run:
terminal outcome, final ConversationState, the trace of oracle
consultations (capability id and the ConversationState shown to the
oracle), and every SQL statement executed against the database. -/
structure LoopResult where
  outcome : Outcome
  finalCs : ConversationState
  consultations : List (String × ConversationState)
  executed : List String

/-- Modelled from the spec: the AGENT_TURN / TOOL_DISPATCH loop of section
4.4, with a fuel argument carrying the remaining turn budget; exhausting
the budget terminates in FAILED with TurnBudgetExhausted. -/
def runLoop (sys : System) (selected : String) (oracle : Oracle) :
    Nat → ConversationState → LoopResult
  | 0, cs =>
    { outcome := Outcome.failed FailureReason.TurnBudgetExhausted
      finalCs := cs, consultations := [], executed := [] }
  | Nat.succ fuel, cs =>
    match oracle cs with
    | AgentStep.final fa =>
      { outcome := Outcome.done fa
        finalCs := cs ++ [Entry.finalAnswer fa]
        consultations := [(selected, cs)], executed := [] }
    | AgentStep.toolCalls tcs =>
      let d := dispatchAll sys tcs
      let r := runLoop sys selected oracle fuel (cs ++ d.1)
      { outcome := r.outcome
        finalCs := r.finalCs
        consultations := (selected, cs) :: r.consultations
        executed := d.2 ++ r.executed }

/-- Modelled from the spec: the capability id selected in the ROUTING
state (section 4.4). -/
def routeOf (sys : System) (req : Request) : String :=
  route (sys.routerAnswer req) (sys.capabilities.map Prod.fst) sys.sqlAgentId

/-- Modelled from the spec: the agent oracle of the selected capability; a
missing table entry degrades to an oracle that proposes nothing, which the
turn budget then bounds. -/
def selectedOracle (sys : System) (req : Request) : Oracle :=
  match sys.capabilities.lookup (routeOf sys req) with
  | some o => o
  | none => fun _ => AgentStep.toolCalls []

/-- Modelled from the spec: the full Orchestration Loop of section 4.4:
route once, then loop agent turns on a fresh ConversationState holding the
Request until DONE or the budget runs out. -/
def orchestrate (sys : System) (req : Request) : LoopResult :=
  runLoop sys (routeOf sys req) (selectedOracle sys req) sys.maxTurns
    [Entry.request req]

/-- Recognizes a FinalAnswer entry. -/
def isFinalEntry : Entry → Bool
  | Entry.finalAnswer _ => true
  | _ => false

/-- Number of FinalAnswer entries in a ConversationState. -/
def finalCount (cs : ConversationState) : Nat :=
  cs.countP isFinalEntry

/-- Holds when every FinalAnswer entry of the sequence is its last entry
(hence there is at most one). -/
def finalLastOk : ConversationState → Bool
  | [] => true
  | Entry.finalAnswer _ :: rest => rest.isEmpty
  | _ :: rest => finalLastOk rest

/-- No FinalAnswer entry at all. -/
def noFinal (cs : ConversationState) : Bool :=
  cs.all (fun e => !isFinalEntry e)

/-- Holds when every ToolCall entry is immediately followed by a
ToolResult for the same tool name (no dangling calls). -/
def noDangling : ConversationState → Bool
  | [] => true
  | Entry.toolCall tc :: Entry.toolResult tr :: rest =>
    tc.tool_name == tr.tool_name && noDangling rest
  | Entry.toolCall _ :: _ => false
  | _ :: rest => noDangling rest

/-- A run ToolCall carrying the given SQL statement as its query
argument. -/
def runCall (s : String) : ToolCall :=
  ⟨"run", [("query", s)]⟩

/-- A Python value as far as the notebook query cell needs: strings and
string-keyed dictionaries (the response of agent_executor.invoke). -/
inductive PyVal where
  | pyStr : String → PyVal
  | pyDict : List (String × PyVal) → PyVal

/-- Python dict.get with a fallback value: total, never raises. -/
def dictGet (d : List (String × PyVal)) (key : String) (fallback : PyVal) :
    PyVal :=
  match d.lookup key with
  | some v => v
  | none => fallback

/-- Python dict subscript, which raises KeyError on a missing key;
modelled as an Except value for contrast with dict.get. -/
def dictGetItem (d : List (String × PyVal)) (key : String) :
    Except String PyVal :=
  match d.lookup key with
  | some v => Except.ok v
  | none => Except.error "KeyError"

/-- The notebook query cell prints response_dict.get of the key output
with the whole response_dict as the fallback (1-LangChain.ipynb, the
natural-language query example cell). -/
def printedResponse (response_dict : List (String × PyVal)) : PyVal :=
  dictGet response_dict "output" (PyVal.pyDict response_dict)

/-- A column declaration of the seeded SQLite schema. -/
structure Column where
  name : String
  notNull : Bool
deriving DecidableEq, Repr

/-- A foreign-key declaration: column, referenced table, referenced
column. -/
structure ForeignKey where
  column : String
  refTable : String
  refColumn : String
deriving DecidableEq, Repr

/-- A table declaration of the seeded SQLite schema. -/
structure Table where
  name : String
  columns : List Column
  primaryKey : List String
  foreignKeys : List ForeignKey
deriving DecidableEq, Repr

/-- The menu table as printed by sql_db_schema in the notebook run:
id, name, category and price are NOT NULL, ingredients is nullable, id is
the primary key (1-LangChain.ipynb output of the query cell). -/
def menuTable : Table :=
  { name := "menu"
    columns :=
      [⟨"id", true⟩, ⟨"name", true⟩, ⟨"category", true⟩,
       ⟨"price", true⟩, ⟨"ingredients", false⟩]
    primaryKey := ["id"]
    foreignKeys := [] }

/-- The nutrition_facts table as printed by sql_db_schema in the notebook
run: item_id is NOT NULL, the primary key, and a foreign key referencing
menu id; the nutrient columns are nullable (1-LangChain.ipynb output of
the query cell). -/
def nutritionFactsTable : Table :=
  { name := "nutrition_facts"
    columns :=
      [⟨"item_id", true⟩, ⟨"calories", false⟩, ⟨"protein_g", false⟩,
       ⟨"fat_g", false⟩, ⟨"carbs_g", false⟩, ⟨"sodium_mg", false⟩]
    primaryKey := ["item_id"]
    foreignKeys := [⟨"item_id", "menu", "id"⟩] }

/-- A row of the menu table; the FLOAT price column is modelled as a
rational since no claim computes with it. -/
structure MenuRow where
  id : Int
  name : String
  category : String
  price : ℚ
  ingredients : Option String

/-- A row of the nutrition_facts table; nullable columns are options. -/
structure NutritionRow where
  item_id : Int
  calories : Option Int
  protein_g : Option ℚ
  fat_g : Option ℚ
  carbs_g : Option ℚ
  sodium_mg : Option Int

/-- The three sample menu rows printed by sql_db_schema in the notebook
run. -/
def sampleMenuRows : List MenuRow :=
  [⟨1, "Classic Cheeseburger", "Entree", 599/100,
    some "Beef patty, cheese, lettuce, tomato, pickles, bun, condiments"⟩,
   ⟨2, "Bacon Cheeseburger", "Entree", 699/100,
    some "Beef patty, bacon, cheese, lettuce, tomato, onions, bun, condiments"⟩,
   ⟨3, "Double Deluxe Burger", "Entree", 799/100,
    some "Two beef patties, double cheese, lettuce, tomato, pickles, onions, special sauce, bun"⟩]

/-- The three sample nutrition_facts rows printed by sql_db_schema in the
notebook run. -/
def sampleNutritionRows : List NutritionRow :=
  [⟨1, some 550, some 25, some 30, some 45, some 800⟩,
   ⟨2, some 650, some 30, some 40, some 50, some 900⟩,
   ⟨3, some 800, some 35, some 45, some 60, some 1100⟩]

/-- A concrete SQL collaborator over the seeded menu database, used to
instantiate the theorems at closed inputs. -/
def demoCollab : SqlCollab :=
  { list_tables := ["menu", "nutrition_facts"]
    schema := fun _ => "CREATE TABLE menu (id INTEGER NOT NULL, ...)"
    dbExec := fun s =>
      if s == "SELECT name FROM menu" then Except.ok "[(Classic Cheeseburger,)]"
      else Except.error "no such table" }

/-- A concrete check oracle that rejects exactly one malformed
statement. -/
def demoChecker : String → Bool := fun s => !(s == "SELECT malformed")

/-- A concrete request. -/
def demoReq : Request := ⟨1, "list all entrees", none⟩

/-- An oracle that always proposes one more tool call and never emits a
FinalAnswer (Scenario D of the spec). -/
def loopOracle : Oracle := fun _ =>
  AgentStep.toolCalls [runCall "SELECT name FROM menu"]

/-- A concrete system whose SQL agent oracle never emits a FinalAnswer. -/
def loopSys : System :=
  { maxTurns := 3
    sqlAgentId := "sql_agent"
    capabilities := [("sql_agent", loopOracle)]
    routerAnswer := fun _ => "sql_agent"
    reg := sqlTools demoCollab demoChecker
    checker := demoChecker }

/-- An oracle that first proposes executing a write statement and, once
the rejection is in the conversation, emits a FinalAnswer (Scenario B of
the spec). -/
def dropOracle : Oracle := fun cs =>
  if cs.length ≤ 1 then AgentStep.toolCalls [runCall "DROP TABLE menu"]
  else AgentStep.final ⟨"the request would modify the database and was refused"⟩

/-- A concrete system whose SQL agent proposes a DROP TABLE statement. -/
def dropSys : System :=
  { maxTurns := 3
    sqlAgentId := "sql_agent"
    capabilities := [("sql_agent", dropOracle)]
    routerAnswer := fun _ => "sql_agent"
    reg := sqlTools demoCollab demoChecker
    checker := demoChecker }

/-- An oracle that immediately emits a FinalAnswer. -/
def finalOracle : Oracle := fun _ => AgentStep.final ⟨"done"⟩

/-- A concrete system whose router oracle answers with an unknown
capability id (Scenario C of the spec). -/
def bogusRouteSys : System :=
  { maxTurns := 3
    sqlAgentId := "sql_agent"
    capabilities := [("sql_agent", finalOracle), ("competitor_analysis_agent", finalOracle)]
    routerAnswer := fun _ => "bogus_capability"
    reg := sqlTools demoCollab demoChecker
    checker := demoChecker }

/-- An oracle that proposes a malformed statement for execution and then
answers. -/
def badSqlOracle : Oracle := fun cs =>
  if cs.length ≤ 1 then AgentStep.toolCalls [runCall "SELECT malformed"]
  else AgentStep.final ⟨"the statement did not pass the check"⟩

/-- A concrete system whose SQL agent proposes a statement the check
oracle rejects. -/
def badSqlSys : System :=
  { maxTurns := 3
    sqlAgentId := "sql_agent"
    capabilities := [("sql_agent", badSqlOracle)]
    routerAnswer := fun _ => "sql_agent"
    reg := sqlTools demoCollab demoChecker
    checker := demoChecker }

theorem dispatchAll_noFinal (sys : System) (tcs : List ToolCall) :
    noFinal (dispatchAll sys tcs).1 = true := by
  induction tcs with
  | nil => rfl
  | cons tc rest ih =>
    simpa [dispatchAll, noFinal, isFinalEntry] using ih

theorem noFinal_append {a b : ConversationState}
    (ha : noFinal a = true) (hb : noFinal b = true) :
    noFinal (a ++ b) = true := by
  simp only [noFinal, List.all_append]
  simp only [noFinal] at ha hb
  simp [ha, hb]

theorem noFinal_tail {e : Entry} {rest : ConversationState}
    (h : noFinal (e :: rest) = true) : noFinal rest = true := by
  simp only [noFinal, List.all_cons, Bool.and_eq_true] at h
  exact h.2

theorem finalLastOk_of_noFinal {cs : ConversationState}
    (h : noFinal cs = true) : finalLastOk cs = true := by
  induction cs with
  | nil => rfl
  | cons e rest ih =>
    have h2 := noFinal_tail h
    cases e with
    | finalAnswer fa => simp [noFinal, isFinalEntry] at h
    | request r => simpa [finalLastOk] using ih h2
    | decision d => simpa [finalLastOk] using ih h2
    | toolCall t => simpa [finalLastOk] using ih h2
    | toolResult t => simpa [finalLastOk] using ih h2

theorem finalLastOk_append_final {cs : ConversationState}
    (h : noFinal cs = true) (fa : FinalAnswer) :
    finalLastOk (cs ++ [Entry.finalAnswer fa]) = true := by
  induction cs with
  | nil => rfl
  | cons e rest ih =>
    have h2 := noFinal_tail h
    cases e with
    | finalAnswer fa2 => simp [noFinal, isFinalEntry] at h
    | request r => simpa [finalLastOk] using ih h2
    | decision d => simpa [finalLastOk] using ih h2
    | toolCall t => simpa [finalLastOk] using ih h2
    | toolResult t => simpa [finalLastOk] using ih h2

theorem finalCount_of_noFinal {cs : ConversationState}
    (h : noFinal cs = true) : finalCount cs = 0 := by
  simp only [noFinal, List.all_eq_true] at h
  simp only [finalCount, List.countP_eq_zero]
  intro e he
  simpa using h e he

theorem runLoop_final_invariant (sys : System) (selected : String)
    (oracle : Oracle) :
    ∀ (fuel : Nat) (cs : ConversationState), noFinal cs = true →
      finalLastOk (runLoop sys selected oracle fuel cs).finalCs = true ∧
      finalCount (runLoop sys selected oracle fuel cs).finalCs ≤ 1 ∧
      ((runLoop sys selected oracle fuel cs).consultations.all
        (fun p => finalLastOk p.2)) = true := by
  intro fuel
  induction fuel with
  | zero =>
    intro cs h
    refine ⟨finalLastOk_of_noFinal h, ?_, ?_⟩
    · simp [runLoop, finalCount_of_noFinal h]
    · simp [runLoop]
  | succ n ih =>
    intro cs h
    simp only [runLoop]
    cases hstep : oracle cs with
    | final fa =>
      refine ⟨finalLastOk_append_final h fa, ?_, ?_⟩
      · simp [finalCount, List.countP_append]
        simp only [finalCount, List.countP_eq_zero] at *
        have := finalCount_of_noFinal h
        simp only [finalCount] at this
        simp [this, isFinalEntry]
      · simp [finalLastOk_of_noFinal h]
    | toolCalls tcs =>
      have hcs : noFinal (cs ++ (dispatchAll sys tcs).1) = true :=
        noFinal_append h (dispatchAll_noFinal sys tcs)
      have := ih (cs ++ (dispatchAll sys tcs).1) hcs
      refine ⟨this.1, this.2.1, ?_⟩
      simp [finalLastOk_of_noFinal h, this.2.2]

/-- C1: for every system and request, the conversation produced by the
Orchestration Loop contains at most one FinalAnswer entry, a FinalAnswer
entry can only be the last entry, and every ConversationState the oracle
is consulted with satisfies the same property. -/
theorem final_answer_at_most_one_and_last (sys : System) (req : Request) :
    finalCount (orchestrate sys req).finalCs ≤ 1 ∧
    finalLastOk (orchestrate sys req).finalCs = true ∧
    ((orchestrate sys req).consultations.all
      (fun p => finalLastOk p.2)) = true := by
  have h := runLoop_final_invariant sys (routeOf sys req)
    (selectedOracle sys req) sys.maxTurns [Entry.request req] (by rfl)
  exact ⟨h.2.1, h.1, h.2.2⟩

theorem invoke_ok_name {reg : Registry} {tc : ToolCall}
    {pr : ToolResult × List String}
    (h : Registry.invoke reg tc = Except.ok pr) :
    pr.1.tool_name = tc.tool_name := by
  unfold Registry.invoke at h
  split at h
  · exact absurd h (by simp)
  · split at h
    · simp only [Except.ok.injEq] at h
      rw [← h]
    · simp only [Except.ok.injEq] at h
      rw [← h]

theorem dispatchCall_name (sys : System) (tc : ToolCall) :
    (dispatchCall sys tc).1.tool_name = tc.tool_name := by
  unfold dispatchCall
  split
  · rfl
  · cases hres : Registry.invoke sys.reg tc with
    | ok pr => exact invoke_ok_name hres
    | error e => rfl

theorem dispatchAll_noDangling (sys : System) (tcs : List ToolCall) :
    noDangling (dispatchAll sys tcs).1 = true := by
  induction tcs with
  | nil => rfl
  | cons tc rest ih =>
    simp [dispatchAll, noDangling, dispatchCall_name, ih]

theorem noDangling_append {a : ConversationState} (b : ConversationState)
    (ha : noDangling a = true) :
    noDangling (a ++ b) = noDangling b := by
  induction a using noDangling.induct with
  | case1 => rfl
  | case2 tc tr rest ih =>
    simp only [noDangling, Bool.and_eq_true] at ha
    simpa [noDangling, ha.1] using ih ha.2
  | case3 tc tail hne =>
    exfalso
    cases tail with
    | nil => simp [noDangling] at ha
    | cons e rest2 =>
      cases e with
      | toolResult tr => exact hne tr rest2 rfl
      | request r => simp [noDangling] at ha
      | decision d => simp [noDangling] at ha
      | toolCall t2 => simp [noDangling] at ha
      | finalAnswer f => simp [noDangling] at ha
  | case4 head rest h1 h2 ih =>
    cases head with
    | toolCall tc => exact (h2 tc rfl).elim
    | request r => exact ih ha
    | decision d => exact ih ha
    | toolResult tr => exact ih ha
    | finalAnswer f => exact ih ha

theorem runLoop_noDangling (sys : System) (selected : String)
    (oracle : Oracle) :
    ∀ (fuel : Nat) (cs : ConversationState), noDangling cs = true →
      ((runLoop sys selected oracle fuel cs).consultations.all
        (fun p => noDangling p.2) = true) ∧
      noDangling (runLoop sys selected oracle fuel cs).finalCs = true := by
  intro fuel
  induction fuel with
  | zero =>
    intro cs h
    exact ⟨by simp [runLoop], by simpa [runLoop] using h⟩
  | succ n ih =>
    intro cs h
    simp only [runLoop]
    cases hstep : oracle cs with
    | final fa =>
      constructor
      · simp [h]
      · rw [noDangling_append _ h]; rfl
    | toolCalls tcs =>
      have hd : noDangling (cs ++ (dispatchAll sys tcs).1) = true := by
        rw [noDangling_append _ h]
        exact dispatchAll_noDangling sys tcs
      have hr := ih (cs ++ (dispatchAll sys tcs).1) hd
      exact ⟨by simp [h, hr.1], hr.2⟩

/-- C2: every ToolCall appended to the ConversationState is immediately
followed by a ToolResult for the same tool, both in every state the
oracle is consulted with and in the final state: no dangling tool
calls. -/
theorem tool_calls_always_answered (sys : System) (req : Request) :
    ((orchestrate sys req).consultations.all
      (fun p => noDangling p.2) = true) ∧
    noDangling (orchestrate sys req).finalCs = true :=
  runLoop_noDangling sys (routeOf sys req) (selectedOracle sys req)
    sys.maxTurns [Entry.request req] (by rfl)

theorem runLoop_consult_le (sys : System) (selected : String)
    (oracle : Oracle) :
    ∀ (fuel : Nat) (cs : ConversationState),
      (runLoop sys selected oracle fuel cs).consultations.length ≤ fuel := by
  intro fuel
  induction fuel with
  | zero => intro cs; simp [runLoop]
  | succ n ih =>
    intro cs
    simp only [runLoop]
    cases hstep : oracle cs with
    | final fa => simp
    | toolCalls tcs =>
      simp only [List.length_cons]
      exact Nat.succ_le_succ (ih _)

theorem runLoop_outcome_dichotomy (sys : System) (selected : String)
    (oracle : Oracle) :
    ∀ (fuel : Nat) (cs : ConversationState),
      (∃ fa, (runLoop sys selected oracle fuel cs).outcome = Outcome.done fa) ∨
      (runLoop sys selected oracle fuel cs).outcome =
        Outcome.failed FailureReason.TurnBudgetExhausted := by
  intro fuel
  induction fuel with
  | zero => intro cs; right; rfl
  | succ n ih =>
    intro cs
    simp only [runLoop]
    cases hstep : oracle cs with
    | final fa => left; exact ⟨fa, rfl⟩
    | toolCalls tcs => exact ih _

theorem runLoop_never_final (sys : System) (selected : String)
    (oracle : Oracle)
    (h : ∀ cs, ∃ tcs, oracle cs = AgentStep.toolCalls tcs) :
    ∀ (fuel : Nat) (cs : ConversationState),
      (runLoop sys selected oracle fuel cs).outcome =
        Outcome.failed FailureReason.TurnBudgetExhausted := by
  intro fuel
  induction fuel with
  | zero => intro cs; rfl
  | succ n ih =>
    intro cs
    obtain ⟨tcs, htcs⟩ := h cs
    simp only [runLoop, htcs]
    exact ih _

theorem runLoop_consulted_final (sys : System) (selected : String)
    (oracle : Oracle) :
    ∀ (fuel : Nat) (cs : ConversationState) (c : String)
      (csx : ConversationState) (fa : FinalAnswer),
      (c, csx) ∈ (runLoop sys selected oracle fuel cs).consultations →
      oracle csx = AgentStep.final fa →
      (runLoop sys selected oracle fuel cs).outcome = Outcome.done fa := by
  intro fuel
  induction fuel with
  | zero =>
    intro cs c csx fa hmem
    simp [runLoop] at hmem
  | succ n ih =>
    intro cs c csx fa hmem hfa
    simp only [runLoop] at hmem ⊢
    cases hstep : oracle cs with
    | final fa0 =>
      rw [hstep] at hmem
      simp only [List.mem_singleton, Prod.mk.injEq] at hmem
      rw [← hmem.2] at hstep
      rw [hfa] at hstep
      simp only [AgentStep.final.injEq] at hstep
      rw [hstep]
    | toolCalls tcs =>
      rw [hstep] at hmem
      simp only [List.mem_cons, Prod.mk.injEq] at hmem
      rcases hmem with ⟨hc, hcs⟩ | hmem
      · rw [← hcs] at hstep
        rw [hfa] at hstep
        exact absurd hstep (by simp)
      · exact ih _ c csx fa hmem hfa

/-- C3: the Orchestration Loop consults the oracle at most maxTurns
times; its outcome is always DONE or FAILED with TurnBudgetExhausted; an
oracle that never emits a FinalAnswer makes it fail with
TurnBudgetExhausted; and whenever the oracle answers a consulted state
with a FinalAnswer the loop terminates in DONE with that answer. -/
theorem loop_terminates_within_budget (sys : System) (req : Request) :
    (orchestrate sys req).consultations.length ≤ sys.maxTurns ∧
    ((∃ fa, (orchestrate sys req).outcome = Outcome.done fa) ∨
      (orchestrate sys req).outcome =
        Outcome.failed FailureReason.TurnBudgetExhausted) ∧
    ((∀ cs, ∃ tcs, selectedOracle sys req cs = AgentStep.toolCalls tcs) →
      (orchestrate sys req).outcome =
        Outcome.failed FailureReason.TurnBudgetExhausted) ∧
    (∀ (c : String) (csx : ConversationState) (fa : FinalAnswer),
      (c, csx) ∈ (orchestrate sys req).consultations →
      selectedOracle sys req csx = AgentStep.final fa →
      (orchestrate sys req).outcome = Outcome.done fa) := by
  refine ⟨?_, ?_, ?_, ?_⟩
  · exact runLoop_consult_le sys _ _ sys.maxTurns _
  · exact runLoop_outcome_dichotomy sys _ _ sys.maxTurns _
  · intro h
    exact runLoop_never_final sys _ _ h sys.maxTurns _
  · intro c csx fa hmem hfa
    exact runLoop_consulted_final sys _ _ sys.maxTurns _ c csx fa hmem hfa

/-- C3 witness: the concrete system whose oracle always proposes another
tool call exhausts its budget of three turns and fails with
TurnBudgetExhausted. -/
theorem loop_terminates_within_budget_witness :
    (orchestrate loopSys demoReq).outcome =
      Outcome.failed FailureReason.TurnBudgetExhausted :=
  (loop_terminates_within_budget loopSys demoReq).2.2.1
    (fun _ => ⟨[runCall "SELECT name FROM menu"], rfl⟩)

theorem argQuery_runCall (s : String) : argQuery (runCall s).arguments = s := by
  simp [argQuery, runCall]

theorem invoke_ok_executed {reg : Registry} {tc : ToolCall}
    {pr : ToolResult × List String}
    (h : Registry.invoke reg tc = Except.ok pr) :
    ∃ cap, reg tc.tool_name = some cap ∧ pr.2 = (cap tc.arguments).executed := by
  unfold Registry.invoke at h
  split at h
  · exact absurd h (by simp)
  · rename_i cap hcap
    refine ⟨cap, hcap, ?_⟩
    split at h
    · simp only [Except.ok.injEq] at h
      rw [← h]
    · simp only [Except.ok.injEq] at h
      rw [← h]

theorem sqlTools_executed (c : SqlCollab) (checker : String → Bool)
    (name : String) (args : List (String × String)) :
    ∀ cap, sqlTools c checker name = some cap →
      ∀ s ∈ (cap args).executed,
        name = "run" ∧ s = argQuery args ∧ (sqlKind s).readOnly = true := by
  intro cap hcap s hs
  unfold sqlTools at hcap
  split at hcap
  · simp only [Option.some.injEq] at hcap
    rw [← hcap] at hs
    simp [listTablesCap] at hs
  · simp only [Option.some.injEq] at hcap
    rw [← hcap] at hs
    simp [schemaCap] at hs
  · simp only [Option.some.injEq] at hcap
    rw [← hcap] at hs
    unfold runCheckedCap at hs
    split at hs <;> simp at hs
  · simp only [Option.some.injEq] at hcap
    rw [← hcap] at hs
    unfold runCap at hs
    split at hs
    · rename_i hro
      cases hdb : c.dbExec (argQuery args) with
      | ok rows =>
        rw [hdb] at hs
        simp only [List.mem_singleton] at hs
        exact ⟨rfl, hs, by rw [hs]; exact hro⟩
      | error e =>
        rw [hdb] at hs
        simp only [List.mem_singleton] at hs
        exact ⟨rfl, hs, by rw [hs]; exact hro⟩
    · simp at hs
  · exact absurd hcap (by simp)

theorem dispatchCall_executed_sound (sys : System) (c : SqlCollab)
    (hreg : sys.reg = sqlTools c sys.checker) (tc : ToolCall) :
    ∀ s ∈ (dispatchCall sys tc).2,
      sys.checker s = true ∧ (sqlKind s).readOnly = true := by
  intro s hs
  unfold dispatchCall at hs
  split at hs
  · simp at hs
  · rename_i hguard
    cases hres : Registry.invoke sys.reg tc with
    | error e => rw [hres] at hs; simp at hs
    | ok pr =>
      rw [hres] at hs
      rw [hreg] at hres
      obtain ⟨cap, hcap, hex⟩ := invoke_ok_executed hres
      rw [hex] at hs
      obtain ⟨hname, hsq, hro⟩ :=
        sqlTools_executed c sys.checker tc.tool_name tc.arguments cap hcap s hs
      refine ⟨?_, hro⟩
      cases hch : sys.checker (argQuery tc.arguments) with
      | true => rw [hsq]; exact hch
      | false => exact absurd (by simp [hname, hch]) hguard

theorem dispatchAll_executed_sound (sys : System) (c : SqlCollab)
    (hreg : sys.reg = sqlTools c sys.checker) (tcs : List ToolCall) :
    ∀ s ∈ (dispatchAll sys tcs).2,
      sys.checker s = true ∧ (sqlKind s).readOnly = true := by
  induction tcs with
  | nil => intro s hs; simp [dispatchAll] at hs
  | cons tc rest ih =>
    intro s hs
    simp only [dispatchAll, List.mem_append] at hs
    rcases hs with hs | hs
    · exact dispatchCall_executed_sound sys c hreg tc s hs
    · exact ih s hs

theorem runLoop_executed_sound (sys : System) (c : SqlCollab)
    (hreg : sys.reg = sqlTools c sys.checker) (selected : String)
    (oracle : Oracle) :
    ∀ (fuel : Nat) (cs : ConversationState),
      ∀ s ∈ (runLoop sys selected oracle fuel cs).executed,
        sys.checker s = true ∧ (sqlKind s).readOnly = true := by
  intro fuel
  induction fuel with
  | zero => intro cs s hs; simp [runLoop] at hs
  | succ n ih =>
    intro cs s hs
    simp only [runLoop] at hs
    cases hstep : oracle cs with
    | final fa => rw [hstep] at hs; simp at hs
    | toolCalls tcs =>
      rw [hstep] at hs
      simp only [List.mem_append] at hs
      rcases hs with hs | hs
      · exact dispatchAll_executed_sound sys c hreg tcs s hs
      · exact ih _ s hs

theorem orchestrate_executed_sound (sys : System) (c : SqlCollab)
    (hreg : sys.reg = sqlTools c sys.checker) (req : Request) :
    ∀ s ∈ (orchestrate sys req).executed,
      sys.checker s = true ∧ (sqlKind s).readOnly = true :=
  runLoop_executed_sound sys c hreg (routeOf sys req)
    (selectedOracle sys req) sys.maxTurns [Entry.request req]

theorem invoke_error_result {reg : Registry} {tc : ToolCall}
    {cap : Capability} {msg : String}
    (hcap : reg tc.tool_name = some cap)
    (hres : (cap tc.arguments).result = Except.error msg) :
    Registry.invoke reg tc =
      Except.ok (⟨tc.tool_name, ToolStatus.error, msg⟩,
        (cap tc.arguments).executed) := by
  unfold Registry.invoke
  split
  · rename_i h
    rw [hcap] at h
    exact absurd h (by simp)
  · rename_i cap2 h
    rw [hcap] at h
    simp only [Option.some.injEq] at h
    subst h
    split
    · rename_i payload hok
      rw [hres] at hok
      exact absurd hok (by simp)
    · rename_i msg2 herr
      rw [hres] at herr
      simp only [Except.error.injEq] at herr
      rw [herr]

/-- C4: an execute ToolCall whose SQL statement fails the check oracle is
dispatched as an error ToolResult with nothing sent to the database; over
a whole run, every statement executed against the database passed the
check, so the failing statement is never executed. -/
theorem check_failure_prevents_execution (sys : System) (c : SqlCollab)
    (hreg : sys.reg = sqlTools c sys.checker) (s : String)
    (hs : sys.checker s = false) (req : Request) :
    (dispatchCall sys (runCall s)).1.status = ToolStatus.error ∧
    (dispatchCall sys (runCall s)).2 = [] ∧
    (∀ t ∈ (orchestrate sys req).executed, sys.checker t = true) ∧
    s ∉ (orchestrate sys req).executed := by
  have hdisp : dispatchCall sys (runCall s) =
      (⟨"run", ToolStatus.error,
        "check failed: statement rejected before execution"⟩, []) := by
    unfold dispatchCall
    rw [argQuery_runCall, hs]
    rfl
  refine ⟨by rw [hdisp], by rw [hdisp], ?_, ?_⟩
  · intro t ht
    exact (orchestrate_executed_sound sys c hreg req t ht).1
  · intro hmem
    have hchk := (orchestrate_executed_sound sys c hreg req s hmem).1
    rw [hs] at hchk
    exact absurd hchk (by simp)

/-- C4 witness: in the concrete system whose agent proposes a statement
the check oracle rejects, the dispatch returns an error ToolResult and
the statement is never executed. -/
theorem check_failure_prevents_execution_witness :
    (dispatchCall badSqlSys (runCall "SELECT malformed")).1.status =
      ToolStatus.error ∧
    (dispatchCall badSqlSys (runCall "SELECT malformed")).2 = [] ∧
    (∀ t ∈ (orchestrate badSqlSys demoReq).executed,
      badSqlSys.checker t = true) ∧
    "SELECT malformed" ∉ (orchestrate badSqlSys demoReq).executed :=
  check_failure_prevents_execution badSqlSys demoCollab rfl
    "SELECT malformed" (by decide) demoReq

/-- C5: the registry statically rejects every non-read-only statement
submitted to run: invoke yields a ToolResult with status error and an
empty execution trace, over a whole run only read-only statements are
ever executed, and in the concrete Scenario B run the DROP TABLE proposal
is rejected, its error ToolResult is appended to the conversation, the
loop reaches DONE without crashing and nothing is executed. -/
theorem read_only_policy_rejects_writes (sys : System) (c : SqlCollab)
    (hreg : sys.reg = sqlTools c sys.checker) (s : String)
    (hw : (sqlKind s).readOnly = false) (req : Request) :
    Registry.invoke sys.reg (runCall s) =
      Except.ok (⟨"run", ToolStatus.error, policyRejectMsg⟩, []) ∧
    (∀ t ∈ (orchestrate sys req).executed, (sqlKind t).readOnly = true) ∧
    (orchestrate dropSys demoReq).outcome =
      Outcome.done ⟨"the request would modify the database and was refused"⟩ ∧
    Entry.toolResult ⟨"run", ToolStatus.error, policyRejectMsg⟩ ∈
      (orchestrate dropSys demoReq).finalCs ∧
    (orchestrate dropSys demoReq).executed = [] := by
  refine ⟨?_, ?_, by decide, by decide, by decide⟩
  · have hco : runCap c (runCall s).arguments =
        ⟨Except.error policyRejectMsg, []⟩ := by
      unfold runCap
      rw [argQuery_runCall, hw]
      simp
    have hinv := @invoke_error_result (sqlTools c sys.checker)
      (runCall s) (runCap c) policyRejectMsg rfl (by rw [hco])
    rw [hreg, hinv, hco]
    rfl
  · intro t ht
    exact (orchestrate_executed_sound sys c hreg req t ht).2

/-- C5 witness: the concrete DROP TABLE statement is rejected by the
read-only policy with an error ToolResult and an empty execution
trace. -/
theorem read_only_policy_rejects_writes_witness :
    Registry.invoke dropSys.reg (runCall "DROP TABLE menu") =
      Except.ok (⟨"run", ToolStatus.error, policyRejectMsg⟩, []) :=
  (read_only_policy_rejects_writes dropSys demoCollab rfl
    "DROP TABLE menu" (by decide) demoReq).1

/-- C6: invoke fails with UnknownTool when the tool name is not
registered; when the underlying capability raises, invoke yields a
ToolResult with status error carrying the message; the loop dispatch
appends a ToolResult for every proposed call, and the loop always ends in
a structured outcome rather than crashing. -/
theorem tool_failures_are_nonfatal (reg : Registry) (tc : ToolCall) :
    (reg tc.tool_name = none →
      Registry.invoke reg tc = Except.error InvokeError.UnknownTool) ∧
    (∀ cap msg, reg tc.tool_name = some cap →
      (cap tc.arguments).result = Except.error msg →
      Registry.invoke reg tc =
        Except.ok (⟨tc.tool_name, ToolStatus.error, msg⟩,
          (cap tc.arguments).executed)) ∧
    (∀ (sys : System) (tcs : List ToolCall) (tc2 : ToolCall), tc2 ∈ tcs →
      Entry.toolResult (dispatchCall sys tc2).1 ∈ (dispatchAll sys tcs).1) ∧
    (∀ (sys : System) (req : Request),
      (∃ fa, (orchestrate sys req).outcome = Outcome.done fa) ∨
      (∃ r, (orchestrate sys req).outcome = Outcome.failed r)) := by
  refine ⟨?_, ?_, ?_, ?_⟩
  · intro h
    unfold Registry.invoke
    rw [h]
  · intro cap msg hcap hres
    exact invoke_error_result hcap hres
  · intro sys tcs tc2 hmem
    induction tcs with
    | nil => simp at hmem
    | cons tc3 rest ih =>
      simp only [List.mem_cons] at hmem
      rcases hmem with hmem | hmem
      · rw [hmem]
        simp [dispatchAll]
      · simp only [dispatchAll, List.mem_cons]
        right; right
        exact ih hmem
  · intro sys req
    rcases runLoop_outcome_dichotomy sys (routeOf sys req)
      (selectedOracle sys req) sys.maxTurns [Entry.request req] with
      ⟨fa, hfa⟩ | hfail
    · exact Or.inl ⟨fa, hfa⟩
    · exact Or.inr ⟨FailureReason.TurnBudgetExhausted, hfail⟩

/-- C6 witness: invoking an unregistered tool name on the SQL registry
fails with UnknownTool. -/
theorem tool_failures_are_nonfatal_witness :
    Registry.invoke (sqlTools demoCollab demoChecker)
      ⟨"analyze_image", []⟩ = Except.error InvokeError.UnknownTool :=
  (tool_failures_are_nonfatal (sqlTools demoCollab demoChecker)
    ⟨"analyze_image", []⟩).1 rfl

/-- C7: when the router oracle's answer matches no known capability id,
routing falls back to the SQL Agent's capability id, and the loop never
terminates in FAILED with RoutingAmbiguous. -/
theorem routing_falls_back_to_sql_agent (sys : System) (req : Request)
    (h : sys.routerAnswer req ∉ sys.capabilities.map Prod.fst) :
    routeOf sys req = sys.sqlAgentId ∧
    (orchestrate sys req).outcome ≠
      Outcome.failed FailureReason.RoutingAmbiguous := by
  constructor
  · unfold routeOf route
    rw [if_neg h]
  · rcases runLoop_outcome_dichotomy sys (routeOf sys req)
      (selectedOracle sys req) sys.maxTurns [Entry.request req] with
      ⟨fa, hfa⟩ | hfail
    · unfold orchestrate
      rw [hfa]
      simp
    · unfold orchestrate
      rw [hfail]
      simp

/-- C7 witness: the concrete system whose router oracle answers with an
unknown capability id routes to the SQL Agent and does not fail with
RoutingAmbiguous. -/
theorem routing_falls_back_to_sql_agent_witness :
    routeOf bogusRouteSys demoReq = bogusRouteSys.sqlAgentId ∧
    (orchestrate bogusRouteSys demoReq).outcome ≠
      Outcome.failed FailureReason.RoutingAmbiguous :=
  routing_falls_back_to_sql_agent bogusRouteSys demoReq (by decide)

theorem runLoop_consult_selected (sys : System) (selected : String)
    (oracle : Oracle) :
    ∀ (fuel : Nat) (cs : ConversationState),
      (runLoop sys selected oracle fuel cs).consultations.all
        (fun p => p.1 == selected) = true := by
  intro fuel
  induction fuel with
  | zero => intro cs; simp [runLoop]
  | succ n ih =>
    intro cs
    simp only [runLoop]
    cases hstep : oracle cs with
    | final fa => simp
    | toolCalls tcs => simp [ih]

/-- C8: the capability selected at ROUTING is the one consulted on every
subsequent AGENT_TURN: the capability id recorded at each oracle
consultation equals the routed id for the whole run. -/
theorem no_mid_conversation_rerouting (sys : System) (req : Request) :
    (orchestrate sys req).consultations.all
      (fun p => p.1 == routeOf sys req) = true :=
  runLoop_consult_selected sys (routeOf sys req) (selectedOracle sys req)
    sys.maxTurns [Entry.request req]

/-- C9: the notebook's print step uses dict.get with the whole response
dict as the fallback: on a response without an output key it prints the
full dict while plain subscripting would raise KeyError, and with an
output key present it prints that value; dict.get is total so the print
step never raises. -/
theorem print_step_never_raises (rd : List (String × PyVal)) :
    (rd.lookup "output" = none →
      printedResponse rd = PyVal.pyDict rd ∧
      dictGetItem rd "output" = Except.error "KeyError") ∧
    (∀ v, rd.lookup "output" = some v → printedResponse rd = v) := by
  constructor
  · intro h
    constructor
    · unfold printedResponse dictGet
      rw [h]
    · unfold dictGetItem
      rw [h]
  · intro v h
    unfold printedResponse dictGet
    rw [h]

/-- C9 witness: on a concrete response dict without an output key, the
print step yields the whole dict and subscripting would raise
KeyError. -/
theorem print_step_never_raises_witness :
    printedResponse [("input", PyVal.pyStr "no output key here")] =
      PyVal.pyDict [("input", PyVal.pyStr "no output key here")] ∧
    dictGetItem [("input", PyVal.pyStr "no output key here")] "output" =
      Except.error "KeyError" :=
  (print_step_never_raises
    [("input", PyVal.pyStr "no output key here")]).1 rfl

theorem count_map_countP {α β : Type} [BEq β] (f : α → β) (l : List α)
    (b : β) : (l.map f).count b = l.countP (fun a => f a == b) := by
  simp only [List.count, List.countP_map]
  rfl

/-- C10: in the seeded schema, every menu column except ingredients is
declared NOT NULL and ingredients is nullable; nutrition_facts has
item_id both as its primary key and as a foreign key referencing menu id;
consequently an instance whose item_id values are key-distinct has at
most one nutrition row per menu item, and an instance respecting the
foreign key has every nutrition row referencing an existing menu row. -/
theorem schema_constraints (m : Int) :
    (menuTable.columns.all
      (fun col => col.name == "ingredients" || col.notNull) = true) ∧
    ((menuTable.columns.find? (fun col => col.name == "ingredients")).map
      Column.notNull = some false) ∧
    nutritionFactsTable.primaryKey = ["item_id"] ∧
    nutritionFactsTable.foreignKeys = [⟨"item_id", "menu", "id"⟩] ∧
    (∀ nrows : List NutritionRow,
      (nrows.map NutritionRow.item_id).Nodup →
      nrows.countP (fun r => r.item_id == m) ≤ 1) ∧
    (∀ (nrows : List NutritionRow) (mrows : List MenuRow),
      (∀ r ∈ nrows, r.item_id ∈ mrows.map MenuRow.id) →
      ∀ r ∈ nrows, ∃ mr ∈ mrows, mr.id = r.item_id) := by
  refine ⟨by decide, by decide, by decide, by decide, ?_, ?_⟩
  · intro nrows hnd
    rw [← count_map_countP]
    exact List.nodup_iff_count_le_one.mp hnd m
  · intro nrows mrows hfk r hr
    have hmem := hfk r hr
    rw [List.mem_map] at hmem
    obtain ⟨mr, hmr, hid⟩ := hmem
    exact ⟨mr, hmr, hid⟩

/-- C10 witness: on the three sample rows from the notebook, menu item 1
has at most one nutrition row and the first nutrition row references an
existing menu row. -/
theorem schema_constraints_witness :
    sampleNutritionRows.countP (fun r => r.item_id == 1) ≤ 1 ∧
    ∃ mr ∈ sampleMenuRows,
      mr.id = (⟨1, some 550, some 25, some 30, some 45, some 800⟩ :
        NutritionRow).item_id := by
  constructor
  · exact (schema_constraints 1).2.2.2.2.1 sampleNutritionRows (by decide)
  · exact (schema_constraints 1).2.2.2.2.2 sampleNutritionRows
      sampleMenuRows (by decide) _ (List.mem_cons_self _ _)

end QSR
